import Mathlib

set_option maxHeartbeats 1000000

/-!
Shallow embedding of the dagny robomagellan sources
`src/path_planner/src/path_planner.cpp` and
`src/cone_detector/src/cone_detector.cpp`.

C doubles are idealized as elements of a linear ordered field with floor.
The grid-indexing code (`map_get`, `map_set`, the laser merge) is kept
polymorphic so that it can be instantiated at `ℚ` for executable witnesses;
the trigonometric planner code is instantiated at `ℝ`.
-/

/-- C library `round` as used by `map_get`/`map_set`: round half away from
zero (`math.h` semantics). -/
def roundC {K : Type*} [LinearOrderedField K] [FloorRing K] (x : K) : ℤ :=
  if x < 0 then -⌊-x + 1 / 2⌋ else ⌊x + 1 / 2⌋

/-- `#define MAP_RES 0.10` — map resolution in meters per cell. -/
def mapRes {K : Type*} [LinearOrderedField K] : K := 1 / 10

/-- `#define MAP_SIZE 5000` — map size in cells per side. -/
def MAP_SIZE : ℤ := 5000

/-- `map_type * map_data` — the global obstacle map, modelled as a map from
the row-major flat index `i * MAP_SIZE + j` to the stored cell value. -/
abbrev Grid : Type := ℤ → ℤ

/-- The empty grid: `main` initializes every cell of `map_data` to `0`. -/
def zeroGrid : Grid := fun _ => 0

/-- The index computation `round(x/MAP_RES) + MAP_SIZE/2` that `map_get` and
`map_set` both perform on each coordinate. -/
def map_index {K : Type*} [LinearOrderedField K] [FloorRing K] (x : K) : ℤ :=
  roundC (x / mapRes) + MAP_SIZE / 2

/-- `map_get`: value of the obstacle map at world point `(x, y)`; returns `0`
for any point not within the map. -/
def map_get {K : Type*} [LinearOrderedField K] [FloorRing K]
    (m : Grid) (x y : K) : ℤ :=
  let i := map_index x
  let j := map_index y
  if 0 ≤ i ∧ i < MAP_SIZE ∧ 0 ≤ j ∧ j < MAP_SIZE then m (i * MAP_SIZE + j) else 0

/-- `map_set`: write `v` at world point `(x, y)`; out-of-bounds writes are
discarded. -/
def map_set {K : Type*} [LinearOrderedField K] [FloorRing K]
    (m : Grid) (x y : K) (v : ℤ) : Grid :=
  let i := map_index x
  let j := map_index y
  if 0 ≤ i ∧ i < MAP_SIZE ∧ 0 ≤ j ∧ j < MAP_SIZE then
    Function.update m (i * MAP_SIZE + j) v
  else m

/-- `laserCallback` merge step (path_planner.cpp:758-764) for one cell: the
local-map value `t` is flattened to `2` when positive, added to the current
global value, clamped to `[0,4]` by the two sequential `if`s, and stored. -/
def merge_write {K : Type*} [LinearOrderedField K] [FloorRing K]
    (m : Grid) (x y : K) (t : ℤ) : Grid :=
  let tmp0 := if 0 < t then 2 else t
  let tmp1 := tmp0 + map_get m x y
  let tmp2 := if 4 < tmp1 then 4 else tmp1
  let tmp3 := if tmp2 < 0 then 0 else tmp2
  map_set m x y tmp3

/-- Reachable global grids: `map_data` starts all zero (`main`), and is only
written by the merge step and by the footprint clear (`map_set _ _ _ 0`) of
`laserCallback`.  The merged local-map value `t` ranges over `int8_t`. -/
inductive GridReach : Grid → Prop
  | init : GridReach zeroGrid
  | merge (m : Grid) (x y : ℚ) (t : ℤ) (h : GridReach m)
      (hlo : -128 ≤ t) (hhi : t ≤ 127) : GridReach (merge_write m x y t)
  | footprint (m : Grid) (x y : ℚ) (h : GridReach m) :
      GridReach (map_set m x y 0)

lemma map_set_cases {K : Type*} [LinearOrderedField K] [FloorRing K]
    (m : Grid) (x y : K) (v : ℤ) (n : ℤ) :
    map_set m x y v n = v ∨ map_set m x y v n = m n := by
  simp only [map_set]
  split
  · by_cases hn : n = map_index x * MAP_SIZE + map_index y
    · subst hn; exact Or.inl (Function.update_same _ _ _)
    · exact Or.inr (Function.update_noteq hn _ _)
  · exact Or.inr rfl

lemma merge_val_range {K : Type*} [LinearOrderedField K] [FloorRing K]
    (m : Grid) (x y : K) (t : ℤ) :
    0 ≤ (if (if 4 < (if 0 < t then 2 else t) + map_get m x y then 4
              else (if 0 < t then 2 else t) + map_get m x y) < 0 then 0
          else if 4 < (if 0 < t then 2 else t) + map_get m x y then 4
              else (if 0 < t then 2 else t) + map_get m x y) ∧
    (if (if 4 < (if 0 < t then 2 else t) + map_get m x y then 4
              else (if 0 < t then 2 else t) + map_get m x y) < 0 then 0
          else if 4 < (if 0 < t then 2 else t) + map_get m x y then 4
              else (if 0 < t then 2 else t) + map_get m x y) ≤ 4 := by
  split_ifs <;> omega

/-- C1: every reachable global grid (all-zero initialization, merge writes and
footprint-clear writes only) has all its cell values in `[0, 4]`. -/
theorem C1_grid_cell_range (m : Grid) (h : GridReach m) (n : ℤ) :
    0 ≤ m n ∧ m n ≤ 4 := by
  induction h generalizing n with
  | init => exact ⟨le_refl 0, by norm_num [zeroGrid]⟩
  | merge m x y t _ _ _ ih =>
      rcases map_set_cases (K := ℚ) m x y
          (if (if 4 < (if 0 < t then 2 else t) + map_get m x y then 4
                else (if 0 < t then 2 else t) + map_get m x y) < 0 then 0
            else if 4 < (if 0 < t then 2 else t) + map_get m x y then 4
                else (if 0 < t then 2 else t) + map_get m x y) n with hc | hc
      · rw [show merge_write m x y t n = map_set m x y _ n from rfl, hc]
        exact merge_val_range m x y t
      · rw [show merge_write m x y t n = map_set m x y _ n from rfl, hc]
        exact ih n
  | footprint m x y _ ih =>
      rcases map_set_cases (K := ℚ) m x y 0 n with hc | hc
      · rw [hc]; norm_num
      · rw [hc]; exact ih n

/-- Witness for C1 at the initial (reachable) grid and cell `0`. -/
theorem C1_grid_cell_range_witness : 0 ≤ zeroGrid 0 ∧ zeroGrid 0 ≤ 4 :=
  C1_grid_cell_range zeroGrid GridReach.init 0

/-- C9: coordinates whose cell index falls outside the `MAP_SIZE × MAP_SIZE`
grid read as `0`, and writes there leave the grid unchanged; in-bounds
coordinates read and write exactly the row-major cell `i * MAP_SIZE + j`. -/
theorem C9_bounds_policy {K : Type*} [LinearOrderedField K] [FloorRing K]
    (m : Grid) (x y : K) (v : ℤ) :
    (¬(0 ≤ map_index x ∧ map_index x < MAP_SIZE ∧
        0 ≤ map_index y ∧ map_index y < MAP_SIZE) →
      map_get m x y = 0 ∧ map_set m x y v = m) ∧
    ((0 ≤ map_index x ∧ map_index x < MAP_SIZE ∧
        0 ≤ map_index y ∧ map_index y < MAP_SIZE) →
      map_get m x y = m (map_index x * MAP_SIZE + map_index y) ∧
      map_set m x y v =
        Function.update m (map_index x * MAP_SIZE + map_index y) v) := by
  constructor <;> intro h
  · exact ⟨by simp [map_get, h], by simp [map_set, h]⟩
  · exact ⟨by simp [map_get, h], by simp [map_set, h]⟩

/-- Witness for C9: the out-of-bounds point `(10^6, 0)` reads `0` and its
write is discarded; the in-bounds point `(0, 0)` reads and writes the central
cell. -/
theorem C9_bounds_policy_witness :
    (map_get (fun _ => 3) (1000000 : ℚ) 0 = 0 ∧
      map_set (fun _ => 3) (1000000 : ℚ) 0 7 = (fun _ => 3)) ∧
    (map_get (fun _ => 3) (0 : ℚ) 0 =
        (fun _ => (3 : ℤ)) (map_index (0 : ℚ) * MAP_SIZE + map_index (0 : ℚ)) ∧
      map_set (fun _ => 3) (0 : ℚ) 0 7 =
        Function.update (fun _ => 3) (map_index (0 : ℚ) * MAP_SIZE + map_index (0 : ℚ)) 7) :=
  ⟨(C9_bounds_policy (fun _ => 3) (1000000 : ℚ) 0 7).1
      (by norm_num [map_index, roundC, mapRes, MAP_SIZE]),
   (C9_bounds_policy (fun _ => 3) (0 : ℚ) 0 7).2
      (by norm_num [map_index, roundC, mapRes, MAP_SIZE])⟩

/-! ## Poses, planner constants, and arc geometry (`ℝ` model) -/

open Real in
/-- `struct loc { double x; double y; double pose; }` — position plus yaw. -/
structure Loc where
  x : ℝ
  y : ℝ
  pose : ℝ

/-- `double min_radius = 0.695` — minimum turning radius (m). -/
def min_radius : ℝ := 0.695

/-- `double max_radius = 4.0` — maximum planned radius (m). -/
def max_radius : ℝ := 4.0

/-- `double goal_err = 0.3`. -/
def goal_err : ℝ := 0.3

/-- `double max_speed = 1.5`. -/
def max_speed : ℝ := 1.5

/-- `double min_speed = 0.1`. -/
def min_speed : ℝ := 0.1

/-- `double planner_lookahead = 4.0`. -/
def planner_lookahead : ℝ := 4.0

/-- `double backup_time = 10.0`. -/
def backup_time : ℝ := 10.0

/-- `double backup_dist = 1.0`. -/
def backup_dist : ℝ := 1.0

/-- `double stuck_timeout = 2.0`. -/
def stuck_timeout : ℝ := 2.0

/-- `double cone_timeout = 1.0`. -/
def cone_timeout : ℝ := 1.0

/-- `double cone_speed = 0.4`. -/
def cone_speed : ℝ := 0.4

/-- `#define dist(a, b) hypot(a.x - b.x, a.y - b.y)`. -/
noncomputable def distL (a b : Loc) : ℝ :=
  Real.sqrt ((a.x - b.x) ^ 2 + (a.y - b.y) ^ 2)

/-- `arc_end(start, r, l)` (path_planner.cpp:219-238): pose after traversing
an arc of signed radius `r` for length `l`.  Note that for `r ≠ 0` the stored
`pose` field of the result is `theta + l / r`, the polar angle of the end
position about the circle center, which is `π/2` below the tangent heading. -/
noncomputable def arc_end (start : Loc) (r l : ℝ) : Loc :=
  if r ≠ 0 then
    let theta := start.pose - Real.pi / 2
    let center_x := start.x + r * Real.cos (start.pose + Real.pi / 2)
    let center_y := start.y + r * Real.sin (start.pose + Real.pi / 2)
    ⟨center_x + r * Real.cos (theta + l / r),
     center_y + r * Real.sin (theta + l / r),
     theta + l / r⟩
  else
    ⟨start.x + l * Real.cos start.pose,
     start.y + l * Real.sin start.pose,
     start.pose⟩

/-- C5 counterexample: from `start = (0,0,0)` with `r = 1`, `l = π/2`, the
round trip `arc_end` then `arc_end` with length `−l` ends at `(0, 2, −π)`,
a full `2` meters away from the start — not within any reasonable `ε`.  The
second traversal subtracts `π/2` from an already-shifted yaw, so it runs on
the wrong circle. -/
theorem C5_round_trip_cex :
    arc_end (arc_end ⟨0, 0, 0⟩ 1 (Real.pi / 2)) 1 (-(Real.pi / 2)) =
      ⟨0, 2, -Real.pi⟩ := by
  have h1 : arc_end ⟨0, 0, 0⟩ 1 (Real.pi / 2) = ⟨1, 1, 0⟩ := by
    simp [arc_end, Real.cos_pi_div_two, Real.sin_pi_div_two]
  rw [h1]
  simp only [arc_end, Loc.mk.injEq]
  norm_num [Real.cos_pi_div_two, Real.sin_pi_div_two]
  rw [show -(Real.pi / 2) + -(Real.pi / 2) = -Real.pi by ring]
  norm_num [Real.cos_neg, Real.sin_neg, Real.cos_pi, Real.sin_pi]

/-- C5 amended: if the reverse traversal starts from the end pose with its
yaw raised by `π/2` (converting the stored polar angle back to the tangent
heading), then `arc_end` with the same `r` and length `−l` recovers the start
`x` and `y` exactly, and ends with stored yaw `start.pose − π/2`. -/
theorem C5_round_trip_amended (start : Loc) (r l : ℝ) (hr : r ≠ 0) :
    (arc_end ⟨(arc_end start r l).x, (arc_end start r l).y,
        (arc_end start r l).pose + Real.pi / 2⟩ r (-l)).x = start.x ∧
    (arc_end ⟨(arc_end start r l).x, (arc_end start r l).y,
        (arc_end start r l).pose + Real.pi / 2⟩ r (-l)).y = start.y ∧
    (arc_end ⟨(arc_end start r l).x, (arc_end start r l).y,
        (arc_end start r l).pose + Real.pi / 2⟩ r (-l)).pose =
      start.pose - Real.pi / 2 := by
  simp only [arc_end, if_pos hr]
  refine ⟨?_, ?_, by ring⟩
  · rw [show start.pose - Real.pi / 2 + l / r + Real.pi / 2 - Real.pi / 2 + -l / r
        = start.pose - Real.pi / 2 by ring,
        show start.pose - Real.pi / 2 + l / r + Real.pi / 2 + Real.pi / 2
        = start.pose + l / r + Real.pi / 2 by ring,
        show start.pose - Real.pi / 2 + l / r
        = start.pose + l / r - Real.pi / 2 by ring]
    simp only [Real.cos_add_pi_div_two, Real.cos_sub_pi_div_two]
    ring
  · rw [show start.pose - Real.pi / 2 + l / r + Real.pi / 2 - Real.pi / 2 + -l / r
        = start.pose - Real.pi / 2 by ring,
        show start.pose - Real.pi / 2 + l / r + Real.pi / 2 + Real.pi / 2
        = start.pose + l / r + Real.pi / 2 by ring,
        show start.pose - Real.pi / 2 + l / r
        = start.pose + l / r - Real.pi / 2 by ring]
    simp only [Real.sin_add_pi_div_two, Real.sin_sub_pi_div_two]
    ring

/-- Witness for C5 amended at `start = (0,0,0)`, `r = 1`, `l = π/2`. -/
theorem C5_round_trip_amended_witness :
    (arc_end ⟨(arc_end ⟨0, 0, 0⟩ 1 (Real.pi / 2)).x,
        (arc_end ⟨0, 0, 0⟩ 1 (Real.pi / 2)).y,
        (arc_end ⟨0, 0, 0⟩ 1 (Real.pi / 2)).pose + Real.pi / 2⟩ 1
          (-(Real.pi / 2))).x = (0 : ℝ) ∧
    (arc_end ⟨(arc_end ⟨0, 0, 0⟩ 1 (Real.pi / 2)).x,
        (arc_end ⟨0, 0, 0⟩ 1 (Real.pi / 2)).y,
        (arc_end ⟨0, 0, 0⟩ 1 (Real.pi / 2)).pose + Real.pi / 2⟩ 1
          (-(Real.pi / 2))).y = (0 : ℝ) ∧
    (arc_end ⟨(arc_end ⟨0, 0, 0⟩ 1 (Real.pi / 2)).x,
        (arc_end ⟨0, 0, 0⟩ 1 (Real.pi / 2)).y,
        (arc_end ⟨0, 0, 0⟩ 1 (Real.pi / 2)).pose + Real.pi / 2⟩ 1
          (-(Real.pi / 2))).pose = (0 : ℝ) - Real.pi / 2 :=
  C5_round_trip_amended ⟨0, 0, 0⟩ 1 (Real.pi / 2) one_ne_zero

/-! ## Arc sampling: `test_arc` and `arcToPath` -/

/-- `test_collision(loc here)`: nonzero map cell at the point.  The sampled
points are built as `loc h` with default pose `0`. -/
noncomputable def test_collision (g : Grid) (here : Loc) : Bool :=
  decide (map_get g here.x here.y ≠ 0)

/-- Number of iterations of `for (double dist = 0; dist < l; dist += MAP_RES/2.0)`
in exact arithmetic: samples are `dist = k * MAP_RES/2` for `k < ⌈l / (MAP_RES/2)⌉`. -/
noncomputable def nSteps (l : ℝ) : ℕ := ⌈l / (mapRes / 2 : ℝ)⌉₊

/-- The sampling loop of `test_arc`: visit point `pt k`, return `false` on the
first collision, `true` when the trip count is exhausted. -/
noncomputable def arc_scan (g : Grid) (pt : ℕ → Loc) : ℕ → ℕ → Bool
  | _, 0 => true
  | k, n + 1 => if test_collision g (pt k) then false else arc_scan g pt (k + 1) n

/-- Ghost trace of the same loop: the points `test_arc` actually visits,
including the colliding point on early return. -/
noncomputable def arc_scan_visited (g : Grid) (pt : ℕ → Loc) : ℕ → ℕ → List Loc
  | _, 0 => []
  | k, n + 1 =>
      pt k :: (if test_collision g (pt k) then [] else arc_scan_visited g pt (k + 1) n)

/-- `test_arc(start, r, l)` (path_planner.cpp:152-183). -/
noncomputable def test_arc (g : Grid) (start : Loc) (r l : ℝ) : Bool :=
  if r ≠ 0 then
    let theta := start.pose - Real.pi / 2
    let center_x := start.x + r * Real.cos (start.pose + Real.pi / 2)
    let center_y := start.y + r * Real.sin (start.pose + Real.pi / 2)
    arc_scan g
      (fun k => ⟨r * Real.cos (theta + (k * (mapRes / 2)) / r) + center_x,
                 r * Real.sin (theta + (k * (mapRes / 2)) / r) + center_y, 0⟩)
      0 (nSteps l)
  else
    arc_scan g
      (fun k => ⟨start.x + (k * (mapRes / 2)) * Real.cos start.pose,
                 start.y + (k * (mapRes / 2)) * Real.sin start.pose, 0⟩)
      0 (nSteps l)

/-- The points `test_arc` visits, in visit order. -/
noncomputable def test_arc_visited (g : Grid) (start : Loc) (r l : ℝ) : List Loc :=
  if r ≠ 0 then
    let theta := start.pose - Real.pi / 2
    let center_x := start.x + r * Real.cos (start.pose + Real.pi / 2)
    let center_y := start.y + r * Real.sin (start.pose + Real.pi / 2)
    arc_scan_visited g
      (fun k => ⟨r * Real.cos (theta + (k * (mapRes / 2)) / r) + center_x,
                 r * Real.sin (theta + (k * (mapRes / 2)) / r) + center_y, 0⟩)
      0 (nSteps l)
  else
    arc_scan_visited g
      (fun k => ⟨start.x + (k * (mapRes / 2)) * Real.cos start.pose,
                 start.y + (k * (mapRes / 2)) * Real.sin start.pose, 0⟩)
      0 (nSteps l)

/-- `arcToPath(start, r, l)` (path_planner.cpp:185-217): the published path,
as the list of sampled positions (pose entries of the message carry only
x and y; the model stores yaw `0` as the message default). -/
noncomputable def arcToPath (start : Loc) (r l : ℝ) : List Loc :=
  if r ≠ 0 then
    let theta := start.pose - Real.pi / 2
    let center_x := start.x + r * Real.cos (start.pose + Real.pi / 2)
    let center_y := start.y + r * Real.sin (start.pose + Real.pi / 2)
    (List.range (nSteps l)).map
      (fun (k : ℕ) => ⟨r * Real.cos (theta + (k * (mapRes / 2)) / r) + center_x,
                 r * Real.sin (theta + (k * (mapRes / 2)) / r) + center_y, 0⟩)
  else
    (List.range (nSteps l)).map
      (fun (k : ℕ) => ⟨start.x + (k * (mapRes / 2)) * Real.cos start.pose,
                 start.y + (k * (mapRes / 2)) * Real.sin start.pose, 0⟩)

lemma arc_scan_visited_take (g : Grid) (pt : ℕ → Loc) :
    ∀ n k, ∃ m, arc_scan_visited g pt k n = ((List.range' k n).map pt).take m := by
  intro n
  induction n with
  | zero => exact fun k => ⟨0, rfl⟩
  | succ n ih =>
      intro k
      rw [List.range'_succ]
      by_cases hc : test_collision g (pt k)
      · exact ⟨1, by simp [arc_scan_visited, hc]⟩
      · obtain ⟨m, hm⟩ := ih (k + 1)
        exact ⟨m + 1, by simp [arc_scan_visited, hc, hm]⟩

lemma arc_scan_true_visited (g : Grid) (pt : ℕ → Loc) :
    ∀ n k, arc_scan g pt k n = true →
      arc_scan_visited g pt k n = (List.range' k n).map pt := by
  intro n
  induction n with
  | zero => intro k _; rfl
  | succ n ih =>
      intro k h
      rw [List.range'_succ]
      by_cases hc : test_collision g (pt k)
      · simp [arc_scan, hc] at h
      · simp only [arc_scan, hc, if_false, Bool.false_eq_true] at h
        simp [arc_scan_visited, hc, ih (k + 1) (by simpa using h)]

/-- C3: the points visited by the collision test `test_arc(start, r, l)` are
exactly an initial segment of the points of the published path
`arcToPath(start, r, l)` (same points, same order, same `MAP_RES/2` spacing),
and when `test_arc` finds no collision the two sequences are identical. -/
theorem C3_sampling_agreement (g : Grid) (start : Loc) (r l : ℝ) :
    (∃ m, test_arc_visited g start r l = (arcToPath start r l).take m) ∧
    (test_arc g start r l = true →
      test_arc_visited g start r l = arcToPath start r l) := by
  by_cases hr : r ≠ 0
  · simp only [test_arc, test_arc_visited, arcToPath, if_pos hr]
    constructor
    · obtain ⟨m, hm⟩ := arc_scan_visited_take g
        (fun k => ⟨r * Real.cos (start.pose - Real.pi / 2 + (k * (mapRes / 2)) / r) +
                    (start.x + r * Real.cos (start.pose + Real.pi / 2)),
                   r * Real.sin (start.pose - Real.pi / 2 + (k * (mapRes / 2)) / r) +
                    (start.y + r * Real.sin (start.pose + Real.pi / 2)), 0⟩)
        (nSteps l) 0
      exact ⟨m, by rw [hm, ← List.range_eq_range']⟩
    · intro h
      rw [arc_scan_true_visited g _ (nSteps l) 0 h, ← List.range_eq_range']
  · simp only [test_arc, test_arc_visited, arcToPath, if_neg hr]
    constructor
    · obtain ⟨m, hm⟩ := arc_scan_visited_take g
        (fun k => ⟨start.x + (k * (mapRes / 2)) * Real.cos start.pose,
                   start.y + (k * (mapRes / 2)) * Real.sin start.pose, 0⟩)
        (nSteps l) 0
      exact ⟨m, by rw [hm, ← List.range_eq_range']⟩
    · intro h
      rw [arc_scan_true_visited g _ (nSteps l) 0 h, ← List.range_eq_range']

/-- Witness for C3 on the empty grid with `r = 0`, `l = 0`. -/
theorem C3_sampling_agreement_witness :
    test_arc zeroGrid ⟨0, 0, 0⟩ 0 0 = true ∧
    test_arc_visited zeroGrid ⟨0, 0, 0⟩ 0 0 = arcToPath ⟨0, 0, 0⟩ 0 0 := by
  have ht : test_arc zeroGrid ⟨0, 0, 0⟩ 0 0 = true := by
    simp [test_arc, nSteps, arc_scan]
  exact ⟨ht, (C3_sampling_agreement zeroGrid ⟨0, 0, 0⟩ 0 0).2 ht⟩

/-! ## Footprint clear (C6), BACKING mode (C7), CONE steering (C10) -/

/-- The point written by the footprint-clear loop of `laserCallback`
(path_planner.cpp:768-776) for robot-local offsets `(lx, ly)`:
`x = bx*cos(theta) + here.x`, `y = by*sin(theta) + here.y`.  Each coordinate
is scaled independently; this is not a rotation. -/
noncomputable def footprint_point (here : Loc) (lx ly : ℝ) : ℝ × ℝ :=
  (lx * Real.cos here.pose + here.x, ly * Real.sin here.pose + here.y)

/-- Modelled from the spec's words for comparison (C6): the local offset
`(lx, ly)` rotated by `pose.yaw` and then translated by the robot position. -/
noncomputable def footprint_point_spec (here : Loc) (lx ly : ℝ) : ℝ × ℝ :=
  (lx * Real.cos here.pose - ly * Real.sin here.pose + here.x,
   lx * Real.sin here.pose + ly * Real.cos here.pose + here.y)

/-- C6 failing input: at `here = (0, 0, yaw = π/2)` with local offset
`(0.16, 0)`, the code clears the cell at the robot center `(0, 0)`, while the
rotation described by the claim reaches `(0, 0.16)`.  (At this yaw the code's
transform collapses the whole footprint rectangle onto a vertical line.) -/
theorem C6_code_eval :
    footprint_point ⟨0, 0, Real.pi / 2⟩ (16 / 100) 0 = (0, 0) ∧
    footprint_point_spec ⟨0, 0, Real.pi / 2⟩ (16 / 100) 0 = (0, 16 / 100) := by
  constructor <;>
    simp [footprint_point, footprint_point_spec, Real.cos_pi_div_two,
      Real.sin_pi_div_two]

/-- One tick of the `BACKING` branch of `plan_path` (path_planner.cpp:286-297),
given the state fields it reads: `planner_timeout` (as seconds, `0` meaning
unset), `backup_pose`, `backup_radius`, the current time and pose.  Returns
the emitted `(speed, radius)` and the `(went_forward, new planner_timeout)`
state produced by the two sequential exit tests. -/
noncomputable def backing_step (timeout : ℝ) (anchor : Loc) (bradius : ℝ)
    (now : ℝ) (here : Loc) : (ℝ × ℝ) × Bool × ℝ :=
  let speed := -2 * min_speed
  let st1 : Bool × ℝ :=
    if now - timeout > backup_time then (true, 0) else (false, timeout)
  let st2 : Bool × ℝ :=
    if distL here anchor > backup_dist then (true, 0) else st1
  ((speed, bradius), st2)

/-- C7 counterexample at the boundary: with `now − planner_timeout_start`
exactly `backup_time` and `|here − anchor|` exactly `backup_dist`, both
disjuncts of the claim's `≥` condition hold, yet the code (which tests with
strict `>`) stays in `BACKING`. -/
theorem C7_backing_cex :
    (backing_step 5 ⟨0, 0, 0⟩ 0 15 ⟨1, 0, 0⟩).2.1 = false ∧
    (15 : ℝ) - 5 ≥ backup_time ∧
    distL ⟨1, 0, 0⟩ ⟨0, 0, 0⟩ ≥ backup_dist := by
  have hd : distL ⟨1, 0, 0⟩ ⟨0, 0, 0⟩ = 1 := by
    simp [distL]
  refine ⟨?_, by norm_num [backup_time], by rw [hd]; norm_num [backup_dist]⟩
  simp only [backing_step, hd]
  norm_num [backup_time, backup_dist]

/-- C7 amended: every `BACKING` tick emits `(speed = −2·min_speed,
radius = backup_radius)`, and the transition back to `FORWARD` (with
`planner_timeout` cleared to the unset value) happens iff
`now − planner_timeout_start > backup_time` (strictly) or
`|here − backup_anchor| > backup_dist` (strictly). -/
theorem C7_backing_amended (timeout : ℝ) (anchor : Loc) (bradius : ℝ)
    (now : ℝ) (here : Loc) :
    (backing_step timeout anchor bradius now here).1 = (-2 * min_speed, bradius) ∧
    ((backing_step timeout anchor bradius now here).2 = (true, 0) ↔
      (now - timeout > backup_time ∨ distL here anchor > backup_dist)) ∧
    (¬(now - timeout > backup_time ∨ distL here anchor > backup_dist) →
      (backing_step timeout anchor bradius now here).2 = (false, timeout)) := by
  refine ⟨rfl, ?_, ?_⟩
  · unfold backing_step
    by_cases h1 : now - timeout > backup_time <;>
      by_cases h2 : distL here anchor > backup_dist <;>
      simp [h1, h2]
  · intro h
    push_neg at h
    unfold backing_step
    simp [not_lt.mpr h.1, not_lt.mpr h.2]

/-- Witness for C7 amended at a state that stays in `BACKING`. -/
theorem C7_backing_amended_witness :
    (backing_step 5 ⟨0, 0, 0⟩ 0 6 ⟨0, 0, 0⟩).2 = (false, 5) :=
  (C7_backing_amended 5 ⟨0, 0, 0⟩ 0 6 ⟨0, 0, 0⟩).2.2
    (by
      push_neg
      constructor
      · norm_num [backup_time]
      · simp [distL, backup_dist]
        norm_num)

/-- The `CONE`-mode steering computation of `plan_path`
(path_planner.cpp:330-338): speed is `cone_speed`; if the last vision
cone-angle update is fresh (`now − cone_time < cone_timeout`) the radius is
`speed / (cone * 1.4)` with no guard on `cone`; otherwise the search-spiral
radius `2.0`. -/
noncomputable def cone_steer (now coneTime cone : ℝ) : ℝ × ℝ :=
  let speed := cone_speed
  let radius :=
    if now - coneTime < cone_timeout then speed / (cone * 1.4) else 2.0
  (speed, radius)

/-- The angular-rate emission of `positionCallback`
(path_planner.cpp:627-631): `angular.z = speed / radius` unless the radius is
exactly zero. -/
noncomputable def cmd_angular (speed radius : ℝ) : ℝ :=
  if radius ≠ 0 then speed / radius else 0

/-- C10: whenever the vision reading is fresh, the emitted radius is the
unguarded quotient `cone_speed / (cone · 1.4)` for every cone angle,
including `cone = 0`, where the divisor is exactly `0` (the source divides
`0.4` by `0.0`; no branch checks `cone`). -/
theorem C10_cone_zero_divisor (now coneTime cone : ℝ)
    (hfresh : now - coneTime < cone_timeout) :
    (cone_steer now coneTime cone).2 = cone_speed / (cone * 1.4) ∧
    (cone_steer now coneTime 0).2 = cone_speed / ((0 : ℝ) * 1.4) ∧
    ((0 : ℝ) * 1.4 = 0) := by
  refine ⟨?_, ?_, by norm_num⟩ <;> simp [cone_steer, hfresh]

/-- Witness for C10 with a fresh reading (`now = coneTime = 0`) of angle `0`. -/
theorem C10_cone_zero_divisor_witness :
    (cone_steer 0 0 0).2 = cone_speed / ((0 : ℝ) * 1.4) ∧ ((0 : ℝ) * 1.4 = 0) :=
  ⟨((C10_cone_zero_divisor 0 0 0 (by norm_num [cone_timeout])).2).1,
   ((C10_cone_zero_divisor 0 0 0 (by norm_num [cone_timeout])).2).2⟩

/-! ## Transform failure in `positionCallback` (C2) -/

/-- A stamped goal point (`geometry_msgs::PointStamped goal_msg`): frame id
plus coordinates. -/
structure GoalMsg where
  frame : String
  gx : ℝ
  gy : ℝ

/-- One odometry message, reduced to the fields `positionCallback` reads
before the transform check. -/
structure OdomMsg where
  frame : String
  ox : ℝ
  oy : ℝ
  yaw : ℝ

/-- The planner globals written by the head of `positionCallback`
(path_planner.cpp:572-596): `last_loc`, `position_frame` and `goal_msg`. -/
structure PlannerVars where
  last_loc : Loc
  position_frame : String
  goal_msg : GoalMsg

/-- A published `cmd_vel` command. -/
abbrev Cmd : Type := ℝ × ℝ

/-- `positionCallback` up to and including the goal-transform check
(path_planner.cpp:572-596).  The transform service is abstracted by
`tfAvail` (the `canTransform` answer) and `tfApply` (the successful
transform); the remainder of the handler (lines 598-649: the active branch,
`plan_path`, the acceleration limiter and the `cmd_vel` publication, none of
which touch these globals) is abstracted as the continuation `rest`.  When
the frames differ and the transform is unavailable the handler logs and
`return`s — but only after `last_loc` and `position_frame` were already
overwritten from the incoming message. -/
def positionCallback (tfAvail : Bool) (tfApply : GoalMsg → String → GoalMsg)
    (rest : PlannerVars → Loc → Option Cmd)
    (s : PlannerVars) (msg : OdomMsg) : PlannerVars × Option Cmd :=
  let here : Loc := ⟨msg.ox, msg.oy, msg.yaw⟩
  let s1 : PlannerVars := ⟨here, msg.frame, s.goal_msg⟩
  if msg.frame ≠ s.goal_msg.frame then
    if tfAvail then
      let s2 : PlannerVars := ⟨here, msg.frame, tfApply s.goal_msg msg.frame⟩
      (s2, rest s2 here)
    else
      (s1, none)
  else
    (s1, rest s1 here)

/-- C2 counterexample: an odometry message in frame `odom` whose goal (frame
`map`) cannot be transformed still mutates planner state — `last_loc` is
overwritten before the transform check, so the stored pose state is not
unchanged as the claim asserts. -/
theorem C2_transform_drop_cex :
    (positionCallback false (fun g _ => g) (fun _ _ => none)
        ⟨⟨0, 0, 0⟩, "odom", ⟨"map", 3, 4⟩⟩ ⟨"odom", 1, 2, 5⟩).1.last_loc =
      ⟨1, 2, 5⟩ ∧
    (⟨1, 2, 5⟩ : Loc) ≠ ⟨0, 0, 0⟩ := by
  constructor
  · simp [positionCallback]
  · intro h
    rw [Loc.mk.injEq] at h
    exact one_ne_zero h.1

/-- C2 amended: when the goal transform is unavailable and the frames differ,
`positionCallback` publishes no command and leaves the stored goal unchanged,
but it has already overwritten the stored pose state (`last_loc`,
`position_frame`) with the incoming odometry message.  (This holds whatever
the rest of the handler would do.) -/
theorem C2_transform_drop_amended (tfApply : GoalMsg → String → GoalMsg)
    (rest : PlannerVars → Loc → Option Cmd) (s : PlannerVars) (msg : OdomMsg)
    (hne : msg.frame ≠ s.goal_msg.frame) :
    positionCallback false tfApply rest s msg =
      (⟨⟨msg.ox, msg.oy, msg.yaw⟩, msg.frame, s.goal_msg⟩, none) := by
  simp [positionCallback, hne]

/-- Witness for C2 amended with frames `odom` and `map`. -/
theorem C2_transform_drop_amended_witness :
    positionCallback false (fun g _ => g) (fun _ _ => none)
        ⟨⟨0, 0, 0⟩, "odom", ⟨"map", 3, 4⟩⟩ ⟨"odom", 1, 2, 5⟩ =
      (⟨⟨1, 2, 5⟩, "odom", ⟨"map", 3, 4⟩⟩, none) :=
  C2_transform_drop_amended (fun g _ => g) (fun _ _ => none)
    ⟨⟨0, 0, 0⟩, "odom", ⟨"map", 3, 4⟩⟩ ⟨"odom", 1, 2, 5⟩ (by decide)

/-! ## The FORWARD branch of `plan_path` (C4, C8) -/

/-- C library `atan2(y, x)`. -/
noncomputable def atan2 (y x : ℝ) : ℝ :=
  if 0 < x then Real.arctan (y / x)
  else if x < 0 then
    (if 0 ≤ y then Real.arctan (y / x) + Real.pi else Real.arctan (y / x) - Real.pi)
  else
    (if 0 < y then Real.pi / 2 else if y < 0 then -(Real.pi / 2) else 0)

/-- The two normalization loops `while (alpha > 2π) alpha -= 4π` and
`while (alpha < -2π) alpha += 4π` of `plan_path` (path_planner.cpp:433-434).
`theta` comes from `atan2` and the yaw from `tf::getYaw`, so
`alpha = 2(theta - yaw)` satisfies `|alpha| < 4π` on every input the handler
receives and each loop body runs at most once; the embedding performs one
conditional step of each loop. -/
noncomputable def normAlpha (a : ℝ) : ℝ :=
  let a1 := if a > 2 * Real.pi then a - 4 * Real.pi else a
  if a1 < -(2 * Real.pi) then a1 + 4 * Real.pi else a1

/-- The tangent-arc computation of the `FORWARD` branch
(path_planner.cpp:418-465): returns the clamped `(radius, arc_len)` that is
then collision-tested.  Each `let` mirrors one source assignment, in order. -/
noncomputable def tangent_arc (start goal : Loc) : ℝ × ℝ :=
  let d := distL start goal
  let theta := atan2 (goal.y - start.y) (goal.x - start.x)
  let alpha0 := 2 * (theta - start.pose)
  let alpha1 := normAlpha alpha0
  let arc_len0 := alpha1
  let alpha2 := if alpha1 > Real.pi then Real.pi * 2 - alpha1 else alpha1
  let alpha3 := if alpha2 < -Real.pi then -(Real.pi * 2) - alpha2 else alpha2
  let beta := (Real.pi - |alpha3|) / 2
  let radius0 := d * Real.sin beta / Real.sin alpha3
  let radius1 :=
    if |arc_len0| > Real.pi then (if radius0 > 0 then min_radius else -min_radius)
    else radius0
  let arc_len1 := arc_len0 * radius1
  let radius2 := if |radius1| < min_radius then 0 else radius1
  let arc_len2 := if |radius1| < min_radius then min_radius else arc_len1
  let radius3 := max (min radius2 max_radius) (-max_radius)
  let arc_len3 := min arc_len2 planner_lookahead
  (radius3, arc_len3)

/-- The score the fallback selection assigns to a candidate radius `r`
(path_planner.cpp:512-519): distance from `arc_end(start, r, l)` to the goal
with `l = min(traverse_dist, r * π / 2)` — note: `r * π / 2` is signed, there
is no `fabs`, so for `r < 0` the length is negative and for `r = 0` it is
`0`. -/
noncomputable def arcScore (start goal : Loc) (td r : ℝ) : ℝ :=
  distL (arc_end start r (min td (r * Real.pi / 2))) goal

/-- Modelled from the spec's words for comparison (C4): score with
`l = min(traverse_dist, |r| * π / 2)`, and `l = traverse_dist` for the
straight candidate `r = 0`. -/
noncomputable def score_spec (start goal : Loc) (td r : ℝ) : ℝ :=
  distL (arc_end start r (if r = 0 then td else min td (|r| * Real.pi / 2))) goal

/-- The `BOOST_FOREACH` minimization loop of the fallback selection
(path_planner.cpp:511-524), carrying `best_r` and `min_dist`. -/
noncomputable def select_go (start goal : Loc) (td : ℝ) :
    ℝ → ℝ → List ℝ → ℝ
  | best_r, _, [] => best_r
  | best_r, min_dist, r :: rest =>
      if arcScore start goal td r < min_dist then
        select_go start goal td r (arcScore start goal td r) rest
      else select_go start goal td best_r min_dist rest

/-- The candidate list built when the tangent arc fails
(path_planner.cpp:471-487): straight if it passes, then for
`i ∈ {1, 2, 4, 8}` the radii `±i·min_radius` that pass `test_arc` over
`min(traverse_dist, i·min_radius·π/2)`, positive before negative. -/
noncomputable def fallback_arcs (g : Grid) (start : Loc) (td : ℝ) : List ℝ :=
  (if test_arc g start 0 td then [(0 : ℝ)] else []) ++
  (List.map (fun i =>
      let d := min td (min_radius * i * Real.pi / 2)
      (if test_arc g start (min_radius * i) d then [min_radius * i] else []) ++
      (if test_arc g start (-(min_radius * i)) d then [-(min_radius * i)] else []))
    [(1 : ℝ), 2, 4, 8]).flatten

/-- Fallback selection (path_planner.cpp:488-527): `none` when no candidate
passes, otherwise the loop of `select_go` started at `arcs.front()`. -/
noncomputable def choose_fallback (g : Grid) (start goal : Loc) (td : ℝ) :
    Option ℝ :=
  match fallback_arcs g start td with
  | [] => none
  | a :: l => some (select_go start goal td a (arcScore start goal td a) (a :: l))

/-- The outputs of one `FORWARD` tick of `plan_path`: the emitted
`(speed, radius)`, the arc length passed to `arcToPath` for the published
path, and whether a path was published. -/
structure FwdOut where
  speed : ℝ
  radius : ℝ
  arcLen : ℝ
  published : Bool

/-- The `FORWARD` branch of `plan_path` (path_planner.cpp:403-544) for an
active goal: early exit at the goal, tangent arc, collision test, fallback
sampling and selection, and the speed assignments of lines 421-424 (from
`traverse_dist`, with the `min_speed` floor) and line 528 (from the selected
fallback `arc_len`, with no floor). -/
noncomputable def forward_plan (g : Grid) (start goal : Loc) : FwdOut :=
  let d := distL start goal
  if d < goal_err then ⟨0, 0, 0, false⟩
  else
    let traverse_dist := min d planner_lookahead
    let speed0 := min max_speed (max_speed * (2 * traverse_dist / planner_lookahead))
    let speed1 := if speed0 < min_speed then min_speed else speed0
    let ra := tangent_arc start goal
    if test_arc g start ra.1 ra.2 then ⟨speed1, ra.1, ra.2, true⟩
    else
      match choose_fallback g start goal traverse_dist with
      | none => ⟨0, 0, 0, false⟩
      | some best_r =>
          let al := if best_r = 0 then traverse_dist else |best_r * Real.pi / 2|
          ⟨min max_speed (max_speed * (2 * al / planner_lookahead)), best_r,
            min traverse_dist al, true⟩

/-- Modelled from the spec's words for comparison (C8): target speed
`clamp(max_speed · 2 · arc_len / planner_lookahead, min_speed, max_speed)`
computed from the selected arc length. -/
noncomputable def speed_spec (arcLen : ℝ) : ℝ :=
  max min_speed (min max_speed (max_speed * (2 * arcLen / planner_lookahead)))

lemma test_collision_zeroGrid (p : Loc) : test_collision zeroGrid p = false := by
  simp [test_collision, map_get, zeroGrid]

lemma arc_scan_zeroGrid (pt : ℕ → Loc) :
    ∀ n k, arc_scan zeroGrid pt k n = true := by
  intro n
  induction n with
  | zero => intro k; rfl
  | succ n ih => intro k; simp [arc_scan, test_collision_zeroGrid, ih]

lemma test_arc_zeroGrid (start : Loc) (r l : ℝ) :
    test_arc zeroGrid start r l = true := by
  unfold test_arc
  split <;> exact arc_scan_zeroGrid _ _ _

lemma min_radius_pos : (0 : ℝ) < min_radius := by norm_num [min_radius]

lemma min_radius_ne : (min_radius : ℝ) ≠ 0 := ne_of_gt min_radius_pos

lemma arc_end_eval_pos :
    arc_end ⟨0, 0, 0⟩ min_radius (min_radius * Real.pi / 2) =
      ⟨min_radius, min_radius, 0⟩ := by
  simp only [arc_end, if_pos min_radius_ne]
  rw [show (0 : ℝ) - Real.pi / 2 + min_radius * Real.pi / 2 / min_radius = 0 by
        field_simp [min_radius_ne]; ring]
  simp [Real.cos_pi_div_two, Real.sin_pi_div_two]

lemma arc_end_eval_neg :
    arc_end ⟨0, 0, 0⟩ (-min_radius) (-min_radius * Real.pi / 2) =
      ⟨-min_radius, -min_radius, 0⟩ := by
  have hne : (-min_radius : ℝ) ≠ 0 := by simpa using min_radius_ne
  simp only [arc_end, if_pos hne]
  rw [show (0 : ℝ) - Real.pi / 2 + -min_radius * Real.pi / 2 / -min_radius = 0 by
        field_simp [min_radius_ne]; ring]
  simp [Real.cos_pi_div_two, Real.sin_pi_div_two]

lemma arc_end_eval_spec_neg :
    arc_end ⟨0, 0, 0⟩ (-min_radius) (min_radius * Real.pi / 2) =
      ⟨min_radius, -min_radius, -Real.pi⟩ := by
  have hne : (-min_radius : ℝ) ≠ 0 := by simpa using min_radius_ne
  simp only [arc_end, if_pos hne]
  rw [show (0 : ℝ) - Real.pi / 2 + min_radius * Real.pi / 2 / -min_radius = -Real.pi by
        field_simp [min_radius_ne]; ring]
  simp [Real.cos_pi_div_two, Real.sin_pi_div_two, Real.cos_pi, Real.sin_pi]

lemma min_td_pos : min (4 : ℝ) (min_radius * Real.pi / 2) = min_radius * Real.pi / 2 := by
  rw [min_eq_right]
  unfold min_radius
  nlinarith [Real.pi_lt_d2, Real.pi_pos]

lemma min_td_neg : min (4 : ℝ) (-min_radius * Real.pi / 2) = -min_radius * Real.pi / 2 := by
  rw [min_eq_right]
  unfold min_radius
  nlinarith [Real.pi_pos]

/-- C4 evaluated at the failing input: with only the two minimum-radius
candidates passing (start `(0,0,0)`, goal `(-4, 1.2)`, `traverse_dist = 4`),
the code's selection loop scores the right-turn candidate by
`arc_end(start, -min_radius, min(4, -min_radius·π/2))` — a negative arc
length, landing at `(-0.695, -0.695)` behind the robot — and therefore picks
`-min_radius`, while the claim's scoring with `l = min(4, |r|·π/2)` ranks
`+min_radius` strictly better. -/
theorem C4_fallback_scoring_code_eval :
    select_go ⟨0, 0, 0⟩ ⟨-4, 6 / 5, 0⟩ 4 min_radius
        (arcScore ⟨0, 0, 0⟩ ⟨-4, 6 / 5, 0⟩ 4 min_radius)
        [min_radius, -min_radius] = -min_radius ∧
    score_spec ⟨0, 0, 0⟩ ⟨-4, 6 / 5, 0⟩ 4 min_radius <
      score_spec ⟨0, 0, 0⟩ ⟨-4, 6 / 5, 0⟩ 4 (-min_radius) := by
  have habs : |(-min_radius : ℝ)| = min_radius := by
    rw [abs_neg, abs_of_pos min_radius_pos]
  have hlt1 : arcScore ⟨0, 0, 0⟩ ⟨-4, 6 / 5, 0⟩ 4 (-min_radius) <
      arcScore ⟨0, 0, 0⟩ ⟨-4, 6 / 5, 0⟩ 4 min_radius := by
    unfold arcScore
    rw [min_td_pos, min_td_neg, arc_end_eval_pos, arc_end_eval_neg]
    unfold distL
    apply Real.sqrt_lt_sqrt
    · positivity
    · unfold min_radius; norm_num
  constructor
  · simp only [select_go, ite_self]
    rw [if_pos hlt1]
  · unfold score_spec
    rw [if_neg min_radius_ne, if_neg (by simpa using min_radius_ne : ¬(-min_radius : ℝ) = 0)]
    rw [habs, abs_of_pos min_radius_pos, min_td_pos, arc_end_eval_pos, arc_end_eval_spec_neg]
    unfold distL
    apply Real.sqrt_lt_sqrt
    · positivity
    · unfold min_radius; norm_num

lemma distL_eval_45 :
    distL ⟨0, 0, 0⟩ ⟨Real.sqrt 2 / 2, Real.sqrt 2 / 2, 0⟩ = 1 := by
  have h2 : Real.sqrt 2 ^ 2 = 2 := Real.sq_sqrt (by norm_num)
  show Real.sqrt (((0 : ℝ) - Real.sqrt 2 / 2) ^ 2 + ((0 : ℝ) - Real.sqrt 2 / 2) ^ 2) = 1
  rw [show ((0 : ℝ) - Real.sqrt 2 / 2) ^ 2 + ((0 : ℝ) - Real.sqrt 2 / 2) ^ 2 = 1 by
    linear_combination h2 / 2]
  exact Real.sqrt_one

lemma atan2_eval_45 :
    atan2 (Real.sqrt 2 / 2 - 0) (Real.sqrt 2 / 2 - 0) = Real.pi / 4 := by
  have hpos : (0 : ℝ) < Real.sqrt 2 / 2 - 0 := by
    rw [sub_zero]; positivity
  rw [atan2, if_pos hpos, div_self (ne_of_gt hpos), Real.arctan_one]

lemma tangent_arc_eval :
    tangent_arc ⟨0, 0, 0⟩ ⟨Real.sqrt 2 / 2, Real.sqrt 2 / 2, 0⟩ =
      (Real.sqrt 2 / 2, Real.pi * Real.sqrt 2 / 4) := by
  have h2 : Real.sqrt 2 ^ 2 = 2 := Real.sq_sqrt (by norm_num)
  have hs15 : Real.sqrt 2 ≤ 1.5 := by nlinarith [h2, Real.sqrt_nonneg 2]
  have hc1 : ¬(Real.pi / 2 > Real.pi) := by linarith [Real.pi_pos]
  have hc2 : ¬(Real.pi / 2 < -Real.pi) := by linarith [Real.pi_pos]
  have habs2 : |Real.pi / 2| = Real.pi / 2 := abs_of_pos (by linarith [Real.pi_pos])
  have habs3 : |Real.sqrt 2 / 2| = Real.sqrt 2 / 2 := abs_of_pos (by positivity)
  have hge : ¬(Real.sqrt 2 / 2 < min_radius) := by
    rw [not_lt]
    unfold min_radius
    nlinarith [h2, Real.sqrt_nonneg 2]
  have hmin4 : min (Real.sqrt 2 / 2) max_radius = Real.sqrt 2 / 2 := by
    apply min_eq_left
    unfold max_radius
    nlinarith [h2, Real.sqrt_nonneg 2]
  have hmax4 : max (Real.sqrt 2 / 2) (-max_radius) = Real.sqrt 2 / 2 := by
    apply max_eq_left
    unfold max_radius
    nlinarith [Real.sqrt_nonneg 2]
  have harc4 : min (Real.pi / 2 * (Real.sqrt 2 / 2)) planner_lookahead =
      Real.pi / 2 * (Real.sqrt 2 / 2) := by
    apply min_eq_left
    unfold planner_lookahead
    nlinarith [Real.pi_lt_d2, hs15, Real.pi_pos, Real.sqrt_nonneg 2]
  have hnorm : normAlpha (Real.pi / 2) = Real.pi / 2 := by
    unfold normAlpha
    rw [if_neg (by linarith [Real.pi_pos] : ¬(Real.pi / 2 > 2 * Real.pi)),
        if_neg (by linarith [Real.pi_pos] : ¬(Real.pi / 2 < -(2 * Real.pi)))]
  simp only [tangent_arc, distL_eval_45, atan2_eval_45]
  rw [show (2 : ℝ) * (Real.pi / 4 - 0) = Real.pi / 2 by ring]
  rw [hnorm, if_neg hc1, if_neg hc2, habs2]
  rw [show (Real.pi - Real.pi / 2) / 2 = Real.pi / 4 by ring]
  rw [Real.sin_pi_div_four, Real.sin_pi_div_two]
  rw [show (1 : ℝ) * (Real.sqrt 2 / 2) / 1 = Real.sqrt 2 / 2 by ring]
  rw [if_neg hc1, habs3, if_neg hge, if_neg hge, hmin4, hmax4, harc4]
  rw [show Real.pi / 2 * (Real.sqrt 2 / 2) = Real.pi * Real.sqrt 2 / 4 by ring]

lemma forward_plan_eval :
    forward_plan zeroGrid ⟨0, 0, 0⟩ ⟨Real.sqrt 2 / 2, Real.sqrt 2 / 2, 0⟩ =
      ⟨3 / 4, Real.sqrt 2 / 2, Real.pi * Real.sqrt 2 / 4, true⟩ := by
  simp only [forward_plan, distL_eval_45, tangent_arc_eval]
  rw [if_neg (by norm_num [goal_err] : ¬((1 : ℝ) < goal_err))]
  rw [test_arc_zeroGrid]
  norm_num [min_speed, max_speed, planner_lookahead, min_def, FwdOut.mk.injEq]

/-- C8 counterexample: on the empty grid with `here = (0,0,0)` and the goal
at distance `1` bearing `45°`, the tangent arc (radius `√2/2`, selected arc
length `π√2/4`) passes, and the emitted pre-limiter speed is
`max_speed · 2 · traverse_dist / planner_lookahead = 0.75` — computed from
`traverse_dist = 1`, not from the selected arc length, so it differs from the
claim's `clamp(max_speed · 2 · arc_len / planner_lookahead, min_speed,
max_speed) = 3π√2/16 ≈ 0.83`. -/
theorem C8_speed_formula_cex :
    (forward_plan zeroGrid ⟨0, 0, 0⟩ ⟨Real.sqrt 2 / 2, Real.sqrt 2 / 2, 0⟩).speed = 3 / 4 ∧
    (forward_plan zeroGrid ⟨0, 0, 0⟩ ⟨Real.sqrt 2 / 2, Real.sqrt 2 / 2, 0⟩).arcLen =
      Real.pi * Real.sqrt 2 / 4 ∧
    speed_spec
        ((forward_plan zeroGrid ⟨0, 0, 0⟩ ⟨Real.sqrt 2 / 2, Real.sqrt 2 / 2, 0⟩).arcLen) ≠
      (forward_plan zeroGrid ⟨0, 0, 0⟩ ⟨Real.sqrt 2 / 2, Real.sqrt 2 / 2, 0⟩).speed := by
  rw [forward_plan_eval]
  refine ⟨rfl, rfl, ?_⟩
  have h2 : Real.sqrt 2 ^ 2 = 2 := Real.sq_sqrt (by norm_num)
  have hsl : Real.sqrt 2 ≤ 1.5 := by nlinarith [h2, Real.sqrt_nonneg 2]
  have hsg : Real.sqrt 2 ≥ 1.41 := by nlinarith [h2, Real.sqrt_nonneg 2]
  have hlo : Real.pi * Real.sqrt 2 > 4.2 := by
    nlinarith [Real.pi_gt_three, hsg, Real.sqrt_nonneg 2]
  have hhi : Real.pi * Real.sqrt 2 < 4.725 := by
    nlinarith [Real.pi_lt_d2, hsl, Real.pi_pos, Real.sqrt_nonneg 2]
  unfold speed_spec
  rw [show max_speed * (2 * (Real.pi * Real.sqrt 2 / 4) / planner_lookahead) =
        3 * (Real.pi * Real.sqrt 2) / 16 by unfold max_speed planner_lookahead; ring]
  rw [min_eq_right (by unfold max_speed; nlinarith),
      max_eq_right (by unfold min_speed; nlinarith)]
  show 3 * (Real.pi * Real.sqrt 2) / 16 ≠ 3 / 4
  intro h
  nlinarith [hlo]

/-- C8 amended: in `FORWARD` mode with the goal farther than `goal_err`, when
the tangent arc passes the collision test the pre-limiter speed is
`min(max_speed, max_speed · 2 · traverse_dist / planner_lookahead)` floored at
`min_speed` — computed from `traverse_dist = min(d, planner_lookahead)`, not
from the selected arc length; when the tangent arc fails and a fallback
candidate `b` is selected, the speed is
`min(max_speed, max_speed · 2 · arc_len / planner_lookahead)` with
`arc_len = traverse_dist` for `b = 0` and `|b·π/2|` otherwise, and no
`min_speed` floor is applied on that path. -/
theorem C8_speed_formula_amended (g : Grid) (start goal : Loc)
    (hd : ¬ distL start goal < goal_err) :
    (test_arc g start (tangent_arc start goal).1 (tangent_arc start goal).2 = true →
      (forward_plan g start goal).speed =
        (if min max_speed (max_speed *
              (2 * min (distL start goal) planner_lookahead / planner_lookahead)) <
            min_speed then min_speed
         else min max_speed (max_speed *
              (2 * min (distL start goal) planner_lookahead / planner_lookahead)))) ∧
    (∀ b, test_arc g start (tangent_arc start goal).1 (tangent_arc start goal).2 = false →
      choose_fallback g start goal (min (distL start goal) planner_lookahead) = some b →
      (forward_plan g start goal).speed =
        min max_speed (max_speed *
          (2 * (if b = 0 then min (distL start goal) planner_lookahead
                else |b * Real.pi / 2|) / planner_lookahead))) := by
  constructor
  · intro ht
    simp only [forward_plan]
    rw [if_neg hd, if_pos ht]
  · intro b ht hc
    simp only [forward_plan, hc]
    rw [if_neg hd, if_neg (by rw [ht]; exact Bool.false_ne_true)]

/-- Witness for C8 amended on the tangent-success branch at the 45° goal. -/
theorem C8_speed_formula_amended_witness :
    (forward_plan zeroGrid ⟨0, 0, 0⟩ ⟨Real.sqrt 2 / 2, Real.sqrt 2 / 2, 0⟩).speed =
      (if min max_speed (max_speed *
            (2 * min (distL ⟨0, 0, 0⟩ ⟨Real.sqrt 2 / 2, Real.sqrt 2 / 2, 0⟩)
              planner_lookahead / planner_lookahead)) < min_speed then min_speed
       else min max_speed (max_speed *
            (2 * min (distL ⟨0, 0, 0⟩ ⟨Real.sqrt 2 / 2, Real.sqrt 2 / 2, 0⟩)
              planner_lookahead / planner_lookahead))) :=
  (C8_speed_formula_amended zeroGrid ⟨0, 0, 0⟩ ⟨Real.sqrt 2 / 2, Real.sqrt 2 / 2, 0⟩
      (by rw [distL_eval_45]; norm_num [goal_err])).1
    (test_arc_zeroGrid ⟨0, 0, 0⟩ _ _)
